import Mathlib

/-!
Verification of the Match Coordinator core of the Chess-MinorProject
repository: data model (gameSchema), rating engine (utils/elo.js),
match controllers (controllers/gameController.js), timeout service and
autonomous opponent selector (SimpleAI / TimeoutService).

Shallow embedding conventions:
* timestamps are integers (milliseconds), user ids are strings;
* the chess rules engine (chess.js) is an external capability, modelled
  as an abstract record of functions `Engine`;
* JavaScript `Math.round` is `jsRound` (floor of x + 1/2);
* database writes of user ratings are recorded as a `RatingEffect`
  value describing exactly which update the controller issues.
-/

set_option maxHeartbeats 1000000

namespace ChessProj

abbrev Time := Int
abbrev UserId := String

/-- gameSchema `status` enum. -/
inductive Status where
  | waiting | active | completed | abandoned
deriving DecidableEq, Repr

/-- gameSchema `currentTurn` enum. -/
inductive Color where
  | white | black
deriving DecidableEq, Repr

/-- The opposite color (the controllers replace the current turn with
the ternary that swaps white and black). -/
def Color.other : Color → Color
  | .white => .black
  | .black => .white

/-- gameSchema default for `fen`. -/
def startingFen : String := "rnbqkbnr/pppppppp/8/8/8/8/PPPPPPPP/RNBQKBNR w KQkq - 0 1"

/-- The Match document (gameSchema).  `warnWhite`/`warnBlack` are the two
fields of `timeoutWarnings`; `result` is the raw schema string
(one of "1-0", "0-1", "1/2-1/2", "aborted", "ongoing"). -/
structure GameState where
  white : Option UserId
  black : Option UserId
  isBot : Bool
  botDifficulty : Int
  moves : List String
  pgn : String
  fen : String
  status : Status
  result : String
  winner : Option UserId
  currentTurn : Color
  startedAt : Time
  endedAt : Option Time
  lastMoveTime : Time
  warnWhite : Bool
  warnBlack : Bool
  abandonedBy : Option Color
deriving DecidableEq, Repr

/-- `Game.create` with the fields the controllers pass; every other field
takes its gameSchema default. -/
def newGame (white black : Option UserId) (isBot : Bool) (botDifficulty : Int)
    (status : Status) (now : Time) : GameState :=
  { white := white, black := black, isBot := isBot,
    botDifficulty := botDifficulty, moves := [], pgn := "",
    fen := startingFen, status := status, result := "ongoing",
    winner := none, currentTurn := .white, startedAt := now,
    endedAt := none, lastMoveTime := now, warnWhite := false,
    warnBlack := false, abandonedBy := none }

/-! ## Rating engine (server/utils/elo.js) -/

/-- `const K_FACTOR = 32`. -/
def K_FACTOR : ℝ := 32

/-- JavaScript `Math.round`: rounds half towards positive infinity. -/
noncomputable def jsRound (x : ℝ) : ℤ := ⌊x + 1 / 2⌋

/-- `getExpectedScore(ratingA, ratingB)`. -/
noncomputable def getExpectedScore (ratingA ratingB : ℤ) : ℝ :=
  1 / (1 + (10 : ℝ) ^ (((ratingB : ℝ) - (ratingA : ℝ)) / 400))

/-- `calculateNewRating(currentRating, expectedScore, actualScore)`. -/
noncomputable def calculateNewRating (currentRating : ℤ)
    (expectedScore actualScore : ℝ) : ℤ :=
  jsRound ((currentRating : ℝ) + K_FACTOR * (actualScore - expectedScore))

/-- The record returned by `updateRatings`. -/
structure RatingChanges where
  whiteRating : ℤ
  blackRating : ℤ
  whiteChange : ℤ
  blackChange : ℤ
deriving DecidableEq, Repr

/-- `updateRatings(whiteRating, blackRating, result)`: the result string
"1-0" gives white actual score 1, "0-1" gives black 1, anything else is
scored as a draw. -/
noncomputable def updateRatings (whiteRating blackRating : ℤ)
    (result : String) : RatingChanges :=
  let whiteExpected := getExpectedScore whiteRating blackRating
  let blackExpected := getExpectedScore blackRating whiteRating
  let whiteActual : ℝ :=
    if result = "1-0" then 1 else if result = "0-1" then 0 else 1 / 2
  let blackActual : ℝ :=
    if result = "1-0" then 0 else if result = "0-1" then 1 else 1 / 2
  let newWhiteRating := calculateNewRating whiteRating whiteExpected whiteActual
  let newBlackRating := calculateNewRating blackRating blackExpected blackActual
  { whiteRating := newWhiteRating, blackRating := newBlackRating,
    whiteChange := newWhiteRating - whiteRating,
    blackChange := newBlackRating - blackRating }

lemma getExpectedScore_self (a : ℤ) : getExpectedScore a a = 1 / 2 := by
  unfold getExpectedScore
  rw [sub_self, zero_div, Real.rpow_zero]
  norm_num

lemma jsRound_intCast (n : ℤ) : jsRound (n : ℝ) = n := by
  unfold jsRound
  rw [Int.floor_eq_iff]
  constructor <;> [skip; push_cast] <;> linarith

lemma jsRound_eq (x : ℝ) (n : ℤ) (h : x = (n : ℝ)) : jsRound x = n := by
  rw [h, jsRound_intCast]

/-- **C2.** `updateRatings` implements the logistic ELO model with K = 32:
for all integer ratings and each of the three results, the returned new
ratings are `round(rating + 32 * (actual - 1 / (1 + 10 ^ ((opp - own) / 400))))`
with actual scores (1,0), (0,1), (1/2,1/2); in particular
`updateRatings 1200 1200 draw = (1200, 1200)` and
`updateRatings 1200 1200 firstWins = (1216, 1184)`. -/
theorem updateRatings_elo_formula :
    (∀ a b : ℤ,
      (updateRatings a b "1-0").whiteRating
          = jsRound ((a : ℝ) + 32 * (1 - 1 / (1 + (10 : ℝ) ^ (((b : ℝ) - (a : ℝ)) / 400)))) ∧
      (updateRatings a b "1-0").blackRating
          = jsRound ((b : ℝ) + 32 * (0 - 1 / (1 + (10 : ℝ) ^ (((a : ℝ) - (b : ℝ)) / 400)))) ∧
      (updateRatings a b "0-1").whiteRating
          = jsRound ((a : ℝ) + 32 * (0 - 1 / (1 + (10 : ℝ) ^ (((b : ℝ) - (a : ℝ)) / 400)))) ∧
      (updateRatings a b "0-1").blackRating
          = jsRound ((b : ℝ) + 32 * (1 - 1 / (1 + (10 : ℝ) ^ (((a : ℝ) - (b : ℝ)) / 400)))) ∧
      (updateRatings a b "1/2-1/2").whiteRating
          = jsRound ((a : ℝ) + 32 * (1 / 2 - 1 / (1 + (10 : ℝ) ^ (((b : ℝ) - (a : ℝ)) / 400)))) ∧
      (updateRatings a b "1/2-1/2").blackRating
          = jsRound ((b : ℝ) + 32 * (1 / 2 - 1 / (1 + (10 : ℝ) ^ (((a : ℝ) - (b : ℝ)) / 400))))) ∧
    ((updateRatings 1200 1200 "1/2-1/2").whiteRating = 1200 ∧
     (updateRatings 1200 1200 "1/2-1/2").blackRating = 1200) ∧
    ((updateRatings 1200 1200 "1-0").whiteRating = 1216 ∧
     (updateRatings 1200 1200 "1-0").blackRating = 1184) := by
  have eDraw : calculateNewRating 1200 (1 / 2) (1 / 2) = 1200 := by
    unfold calculateNewRating K_FACTOR
    exact jsRound_eq _ 1200 (by push_cast; norm_num)
  have eWin : calculateNewRating 1200 (1 / 2) 1 = 1216 := by
    unfold calculateNewRating K_FACTOR
    exact jsRound_eq _ 1216 (by push_cast; norm_num)
  have eLose : calculateNewRating 1200 (1 / 2) 0 = 1184 := by
    unfold calculateNewRating K_FACTOR
    exact jsRound_eq _ 1184 (by push_cast; norm_num)
  refine ⟨fun a b => ?_, ⟨?_, ?_⟩, ?_, ?_⟩
  · refine ⟨?_, ?_, ?_, ?_, ?_, ?_⟩ <;>
      simp [updateRatings, calculateNewRating, getExpectedScore, K_FACTOR]
  · show calculateNewRating 1200 (getExpectedScore 1200 1200) (1 / 2) = 1200
    rw [getExpectedScore_self]
    exact eDraw
  · show calculateNewRating 1200 (getExpectedScore 1200 1200) (1 / 2) = 1200
    rw [getExpectedScore_self]
    exact eDraw
  · show calculateNewRating 1200 (getExpectedScore 1200 1200) 1 = 1216
    rw [getExpectedScore_self]
    exact eWin
  · show calculateNewRating 1200 (getExpectedScore 1200 1200) 0 = 1184
    rw [getExpectedScore_self]
    exact eLose

/-! ## Autonomous opponent selector (services/simpleAI.js, class SimpleAI)

`chess.moves({verbose: true})` yields verbose move objects; we embed the
fields the selector reads.  The heuristic score (`evaluateMove`) and the
safety check of `filterBadMoves` depend only on the fixed position and the
candidate move (every speculative `chess.move` is undone), so they are
modelled as opaque functions supplied as parameters. -/

/-- A verbose chess.js move (the fields SimpleAI uses).  `fromSq` stands
for the `from` field. -/
structure VMove where
  fromSq : String
  toSq : String
  piece : String
  captured : Option String
  promotion : Option String
  san : String
  flags : String
deriving DecidableEq, Repr

/-- The move object SimpleAI returns to the coordinator (`toSq` stands
for the `to` field). -/
structure BotMove where
  fromSq : String
  toSq : String
  promotion : String
deriving DecidableEq, Repr

/-- JavaScript `x || d` for an optional string field: undefined and the
empty string are falsy. -/
def jsOr (s : Option String) (d : String) : String :=
  match s with
  | none => d
  | some v => if v = "" then d else v

/-- The return object `{from, to, promotion: m.promotion || q}` built by
`getRandomMove` and `getSmartMove`. -/
def mkBotMove (m : VMove) : BotMove :=
  { fromSq := m.fromSq, toSq := m.toSq, promotion := jsOr m.promotion "q" }

/-- One iteration of the best-move loop of `getSmartMove`:
`bestScore` starts at `-Infinity` (modelled as `none`); a strictly larger
score restarts the tie list, an equal score appends to it. -/
def stepBest (score : VMove → ℚ) (st : Option ℚ × List VMove) (m : VMove) :
    Option ℚ × List VMove :=
  match st with
  | (none, _) => (some (score m), [m])
  | (some b, l) =>
    if b < score m then (some (score m), [m])
    else if score m = b then (some b, l ++ [m])
    else (some b, l)

/-- The `bestMoves` list after the whole loop. -/
def bestMovesOf (score : VMove → ℚ) (ms : List VMove) : List VMove :=
  (ms.foldl (stepBest score) (none, [])).2

/-- `l[Math.floor(Math.random() * l.length)]`: the random index is always
in range for a non-empty list, modelled by reducing an arbitrary natural
seed modulo the length. -/
def pickOf (l : List VMove) (k : ℕ) : Option VMove :=
  l[k % l.length]?

/-- `filterBadMoves(chess, moves)` keeps exactly the moves passing the
safety predicate (hanging-piece and mate-in-one checks, abstracted as
`isSafe` since the board is restored after each speculative move). -/
def filterBadMoves (isSafe : VMove → Bool) (moves : List VMove) : List VMove :=
  moves.filter isSafe

/-- `getSmartMove(fen)`: null on an empty move list; otherwise safety
filter, fall back to the unfiltered list when the filter empties it,
score, and pick randomly among the best-scoring candidates. -/
def getSmartMove (score : VMove → ℚ) (isSafe : VMove → Bool)
    (moves : List VMove) (k : ℕ) : Option BotMove :=
  if moves.length = 0 then none
  else
    match pickOf (bestMovesOf score
        (if 0 < (filterBadMoves isSafe moves).length
          then filterBadMoves isSafe moves else moves)) k with
    | some m => some (mkBotMove m)
    | none => none

/-- `getRandomMove(fen)`. -/
def getRandomMove (moves : List VMove) (k : ℕ) : Option BotMove :=
  if moves.length = 0 then none
  else
    match pickOf moves k with
    | some m => some (mkBotMove m)
    | none => none

lemma stepBest_subset (score : VMove → ℚ) (st : Option ℚ × List VMove)
    (m x : VMove) (hx : x ∈ (stepBest score st m).2) :
    x ∈ st.2 ∨ x = m := by
  rcases st with ⟨b, l⟩
  cases b with
  | none =>
    simp [stepBest] at hx
    exact Or.inr hx
  | some b =>
    simp only [stepBest] at hx
    split at hx
    · simp at hx; exact Or.inr hx
    · split at hx
      · rcases List.mem_append.mp hx with h | h
        · exact Or.inl h
        · simp at h; exact Or.inr h
      · exact Or.inl hx

lemma stepBest_ne_nil (score : VMove → ℚ) (st : Option ℚ × List VMove)
    (m : VMove) (h : st.2 ≠ [] ∨ st.1 = none) :
    (stepBest score st m).2 ≠ [] := by
  rcases st with ⟨b, l⟩
  cases b with
  | none => simp [stepBest]
  | some b =>
    simp only [stepBest]
    split
    · simp
    · split
      · simp
      · simpa using h

lemma foldl_stepBest_subset (score : VMove → ℚ) (ms : List VMove) :
    ∀ st : Option ℚ × List VMove, ∀ x ∈ (ms.foldl (stepBest score) st).2,
      x ∈ st.2 ∨ x ∈ ms := by
  induction ms with
  | nil => intro st x hx; exact Or.inl hx
  | cons m tl ih =>
    intro st x hx
    simp only [List.foldl_cons] at hx
    rcases ih (stepBest score st m) x hx with h | h
    · rcases stepBest_subset score st m x h with h2 | h2
      · exact Or.inl h2
      · exact Or.inr (by simp [h2])
    · exact Or.inr (List.mem_cons_of_mem _ h)

lemma foldl_stepBest_ne_nil (score : VMove → ℚ) (ms : List VMove) :
    ∀ st : Option ℚ × List VMove, st.2 ≠ [] →
      (ms.foldl (stepBest score) st).2 ≠ [] := by
  induction ms with
  | nil => intro st h; exact h
  | cons m tl ih =>
    intro st h
    simp only [List.foldl_cons]
    exact ih _ (stepBest_ne_nil score st m (Or.inl h))

lemma bestMovesOf_subset (score : VMove → ℚ) (ms : List VMove) :
    ∀ x ∈ bestMovesOf score ms, x ∈ ms := by
  intro x hx
  rcases foldl_stepBest_subset score ms (none, []) x hx with h | h
  · simp at h
  · exact h

lemma bestMovesOf_ne_nil (score : VMove → ℚ) (ms : List VMove)
    (h : ms ≠ []) : bestMovesOf score ms ≠ [] := by
  cases ms with
  | nil => exact absurd rfl h
  | cons m tl =>
    unfold bestMovesOf
    simp only [List.foldl_cons]
    exact foldl_stepBest_ne_nil score tl _ (by simp [stepBest])

lemma pickOf_mem (l : List VMove) (k : ℕ) (h : l ≠ []) :
    ∃ m ∈ l, pickOf l k = some m := by
  have hlen : 0 < l.length := List.length_pos.mpr h
  have hlt : k % l.length < l.length := Nat.mod_lt _ hlen
  refine ⟨l.get ⟨k % l.length, hlt⟩, List.get_mem _ _ _, ?_⟩
  unfold pickOf
  exact List.getElem?_eq_getElem hlt

/-- The selected move of a successful `getSmartMove` run is a member of
the evaluated candidate list (hence of the legal-move list). -/
lemma getSmartMove_some_mem (score : VMove → ℚ) (isSafe : VMove → Bool)
    (moves : List VMove) (k : ℕ) (b : BotMove)
    (h : getSmartMove score isSafe moves k = some b) :
    ∃ m ∈ moves, b = mkBotMove m := by
  unfold getSmartMove at h
  split at h
  · exact absurd h (by simp)
  · rename_i hne
    have hmoves : moves ≠ [] := by
      intro hnil; exact hne (by simp [hnil])
    set base := if 0 < (filterBadMoves isSafe moves).length
      then filterBadMoves isSafe moves else moves with hbase
    have hbsub : ∀ x ∈ base, x ∈ moves := by
      intro x hx
      rw [hbase] at hx
      split at hx
      · exact List.mem_of_mem_filter hx
      · exact hx
    have hbne : base ≠ [] := by
      rw [hbase]
      split
      · rename_i hpos
        exact List.ne_nil_of_length_pos hpos
      · exact hmoves
    have hbest := bestMovesOf_ne_nil score base hbne
    rcases pickOf_mem (bestMovesOf score base) k hbest with ⟨m, hm, hpick⟩
    rw [hpick] at h
    simp only [Option.some.injEq] at h
    exact ⟨m, hbsub m (bestMovesOf_subset score base m hm), h.symm⟩

lemma getSmartMove_isSome (score : VMove → ℚ) (isSafe : VMove → Bool)
    (moves : List VMove) (k : ℕ) (hmv : moves ≠ []) :
    ∃ b, getSmartMove score isSafe moves k = some b := by
  unfold getSmartMove
  split
  · rename_i hzero
    exact absurd (List.length_eq_zero.mp hzero) hmv
  · set base := if 0 < (filterBadMoves isSafe moves).length
      then filterBadMoves isSafe moves else moves with hbase
    have hbne : base ≠ [] := by
      rw [hbase]
      split
      · rename_i hpos
        exact List.ne_nil_of_length_pos hpos
      · exact hmv
    rcases pickOf_mem (bestMovesOf score base) k
      (bestMovesOf_ne_nil score base hbne) with ⟨m, _, hpick⟩
    exact ⟨mkBotMove m, by rw [hpick]⟩

/-- **C5.** `getSmartMove` returns null exactly on a position with no
legal moves; any returned move is (the return object of) one of the legal
moves; and when the safety filter discards every candidate, evaluation
proceeds over the full unfiltered move list. -/
theorem getSmartMove_total (score : VMove → ℚ) (isSafe : VMove → Bool)
    (moves : List VMove) (k : ℕ) :
    (getSmartMove score isSafe moves k = none ↔ moves = []) ∧
    (∀ b, getSmartMove score isSafe moves k = some b →
      ∃ m ∈ moves, b = mkBotMove m) ∧
    (moves ≠ [] → filterBadMoves isSafe moves = [] →
      getSmartMove score isSafe moves k
        = Option.map mkBotMove (pickOf (bestMovesOf score moves) k)) := by
  refine ⟨⟨fun hnone => ?_, fun hnil => ?_⟩,
    fun b h => getSmartMove_some_mem score isSafe moves k b h, fun hne hfil => ?_⟩
  · by_contra hmv
    rcases getSmartMove_isSome score isSafe moves k hmv with ⟨b, hb⟩
    rw [hnone] at hb
    exact Option.noConfusion hb
  · unfold getSmartMove
    simp [hnil]
  · unfold getSmartMove
    rw [if_neg (by simpa using fun h => hne (List.length_eq_zero.mp h)), hfil]
    simp only [List.length_nil, lt_irrefl, if_false]
    cases hp : pickOf (bestMovesOf score moves) k <;> simp [hp]

/-- **C10.** Every move object produced by the selector carries a
promotion field equal to the promotion of the chosen legal move when that
move has one, and to the default "q" otherwise — for `getSmartMove` and
`getRandomMove` alike. -/
theorem selector_promotion_default (score : VMove → ℚ)
    (isSafe : VMove → Bool) (moves : List VMove) (k : ℕ) :
    (∀ b, getSmartMove score isSafe moves k = some b →
      ∃ m ∈ moves, b.promotion = jsOr m.promotion "q"
        ∧ (∀ p, m.promotion = some p → p ≠ "" → b.promotion = p)
        ∧ (m.promotion = none → b.promotion = "q")) ∧
    (∀ b, getRandomMove moves k = some b →
      ∃ m ∈ moves, b.promotion = jsOr m.promotion "q"
        ∧ (∀ p, m.promotion = some p → p ≠ "" → b.promotion = p)
        ∧ (m.promotion = none → b.promotion = "q")) := by
  have hdetail : ∀ (m : VMove) (b : BotMove), b = mkBotMove m →
      b.promotion = jsOr m.promotion "q"
        ∧ (∀ p, m.promotion = some p → p ≠ "" → b.promotion = p)
        ∧ (m.promotion = none → b.promotion = "q") := by
    intro m b hb
    subst hb
    refine ⟨rfl, fun p hp hpne => ?_, fun hp => ?_⟩
    · simp [mkBotMove, jsOr, hp, hpne]
    · simp [mkBotMove, jsOr, hp]
  constructor
  · intro b h
    rcases getSmartMove_some_mem score isSafe moves k b h with ⟨m, hm, hb⟩
    exact ⟨m, hm, hdetail m b hb⟩
  · intro b h
    unfold getRandomMove at h
    split at h
    · exact absurd h (by simp)
    · rename_i hne
      have hmoves : moves ≠ [] := fun hnil => hne (by simp [hnil])
      rcases pickOf_mem moves k hmoves with ⟨m, hm, hpick⟩
      rw [hpick] at h
      simp only [Option.some.injEq] at h
      exact ⟨m, hm, hdetail m b h.symm⟩

/-! ## The rules-engine capability (chess.js, consumed as opaque)

The controllers build `new Chess(game.fen)` and call `chess.move`,
`chess.isGameOver`, `chess.isCheckmate`, `chess.isDraw` on it.  A
successful `move` yields the applied ply (san) together with the
resulting `fen()` and `pgn()`; an illegal move throws (modelled as
`none`).  The terminal queries are functions of the position reached. -/

/-- The data the controller reads off a successful `chess.move`. -/
structure Ply where
  san : String
  fen : String
  pgn : String
deriving DecidableEq, Repr

/-- An argument passed to `chess.move`: a raw request string, the bot
move object `{from, to, promotion}`, or the reduced `{from, to}` retry
object used by `createBotGame`. -/
inductive MoveArg where
  | str (s : String)
  | obj (m : BotMove)
  | objFromTo (fromSq toSq : String)
deriving DecidableEq, Repr

structure Engine where
  applyMove : String → MoveArg → Option Ply
  isGameOver : String → Bool
  isCheckmate : String → Bool
  isDraw : String → Bool

/-! ## Match coordinator (server/controllers/gameController.js) -/

/-- Rejections issued by the move/resign/abort controllers. -/
inductive MoveErr where
  | notFound | invalidBotGame | notActive | notYourTurn | invalidMove
  | tooLate | internalError
deriving DecidableEq, Repr

/-- The rating write a controller issues on a terminal transition:
none at all, an `updateRatings` invocation whose outputs are `$set` on
both players, or a fixed `$inc` of one user rating. -/
inductive RatingEffect where
  | noRatingChange
  | eloUpdate (result : String)
  | fixedDelta (uid : UserId) (delta : Int)
deriving DecidableEq, Repr

/-- A successful controller response: the saved game plus the rating
write it performed. -/
structure MoveOk where
  game : GameState
  effect : RatingEffect
deriving DecidableEq, Repr

/-- The state mutation every accepted ply performs (gameController lines
268 to 274, 406 to 412 and 502 to 508): append the san, replace fen and
pgn, toggle the turn, stamp the activity time and clear both timeout
warnings. -/
def GameState.applyPly (g : GameState) (p : Ply) (now : Time) : GameState :=
  { g with
    moves := g.moves ++ [p.san], fen := p.fen, pgn := p.pgn,
    currentTurn := g.currentTurn.other, lastMoveTime := now,
    warnWhite := false, warnBlack := false }

/-- `makeMove` (human vs human endpoint).  Note: the controller derives
`userColor` by comparing the requester only against the white slot —
any other authenticated user is treated as black; there is no
participant check.  A null white slot makes the dereference
`game.players.white._id` throw (modelled as `internalError`). -/
def makeMove (E : Engine) (g : GameState) (uid : UserId) (mv : MoveArg)
    (now : Time) : Except MoveErr MoveOk :=
  if g.status ≠ .active then .error .notActive
  else
    match g.white with
    | none => .error .internalError
    | some w =>
      let userColor : Color := if w = uid then .white else .black
      if g.currentTurn ≠ userColor then .error .notYourTurn
      else
        match E.applyMove g.fen mv with
        | none => .error .invalidMove
        | some p =>
          let g1 := g.applyPly p now
          if E.isGameOver p.fen then
            let g2 := { g1 with status := .completed, endedAt := some now }
            if E.isCheckmate p.fen then
              let res := if userColor = .white then "1-0" else "0-1"
              .ok ⟨{ g2 with
                     winner := some uid, result := res }, .eloUpdate res⟩
            else if E.isDraw p.fen then
              .ok ⟨{ g2 with result := "1/2-1/2" }, .eloUpdate "1/2-1/2"⟩
            else
              .ok ⟨g2, .noRatingChange⟩
          else
            .ok ⟨g1, .noRatingChange⟩

/-- `makeBotMove` (bot match endpoint).  There is no participant and no
turn check.  After a non-terminal user ply the bot reply is selected by
`simpleAI.getSmartMove` (abstracted as `select`); a null selector forces
a drawn completion (without `endedAt`), as does a reply the engine
rejects (the inline retry `chess.move(botMoveData.san || botMoveData)`
passes the same object again, since the selector output has no `san`
field, so it is the identical call).  On a bot checkmate the result is
computed from the truthiness of `game.players.white`, exactly as
written in the source. -/
def makeBotMove (E : Engine) (select : String → Option BotMove)
    (g : GameState) (uid : UserId) (mv : MoveArg) (now now2 : Time) :
    Except MoveErr MoveOk :=
  if ¬g.isBot then .error .invalidBotGame
  else if g.status ≠ .active then .error .notActive
  else
    match E.applyMove g.fen mv with
    | none => .error .invalidMove
    | some p =>
      let g1 := g.applyPly p now
      if E.isGameOver p.fen then
        if E.isCheckmate p.fen then
          let res := if g.white = some uid then "1-0" else "0-1"
          .ok ⟨{ g1 with
                 status := .completed, endedAt := some now,
                 winner := some uid, result := res },
               .fixedDelta uid 10⟩
        else if E.isDraw p.fen then
          .ok ⟨{ g1 with
                 status := .completed, endedAt := some now,
                 result := "1/2-1/2" }, .noRatingChange⟩
        else
          .ok ⟨{ g1 with status := .completed, endedAt := some now },
               .noRatingChange⟩
      else
        match select g1.fen with
        | none =>
          .ok ⟨{ g1 with
                 status := .completed, result := "1/2-1/2" },
               .noRatingChange⟩
        | some bm =>
          match E.applyMove g1.fen (.obj bm) with
          | none =>
            .ok ⟨{ g1 with
                   status := .completed, result := "1/2-1/2" },
                 .noRatingChange⟩
          | some bp =>
            let g2 := g1.applyPly bp now2
            if E.isGameOver bp.fen then
              if E.isCheckmate bp.fen then
                let res := if g.white.isSome then "1-0" else "0-1"
                .ok ⟨{ g2 with
                       status := .completed, endedAt := some now2,
                       result := res }, .fixedDelta uid (-10)⟩
              else if E.isDraw bp.fen then
                .ok ⟨{ g2 with
                       status := .completed, endedAt := some now2,
                       result := "1/2-1/2" }, .noRatingChange⟩
              else
                .ok ⟨{ g2 with status := .completed, endedAt := some now2 },
                     .noRatingChange⟩
            else
              .ok ⟨g2, .noRatingChange⟩

/-- `resignGame`.  Bot branch: fixed −5 rating delta to the requester,
no winner recorded.  Human branch: the other slot wins and
`updateRatings` is invoked on the resulting score. -/
def resignGame (g : GameState) (uid : UserId) (now : Time) :
    Except MoveErr MoveOk :=
  if g.status ≠ .active then .error .notActive
  else if g.isBot then
    let userColor : Color := if g.white = some uid then .white else .black
    let res := if userColor = .white then "0-1" else "1-0"
    .ok ⟨{ g with status := .completed, endedAt := some now, result := res },
         .fixedDelta uid (-5)⟩
  else
    match g.white, g.black with
    | some w, some b =>
      let userColor : Color := if w = uid then .white else .black
      let winnerId := if userColor = .white then b else w
      let res := if userColor = .white then "0-1" else "1-0"
      .ok ⟨{ g with
             status := .completed, result := res,
             winner := some winnerId, endedAt := some now },
           .eloUpdate res⟩
    | _, _ => .error .internalError

/-- `abortGame`: only while fewer than two plies exist. -/
def abortGame (g : GameState) (now : Time) : Except MoveErr GameState :=
  if g.status ≠ .active then .error .notActive
  else if 2 ≤ g.moves.length then .error .tooLate
  else .ok { g with status := .abandoned, endedAt := some now }

/-! ## Timeout monitor (TimeoutService and the gameSchema methods) -/

/-- The `timeoutWarnings` flag of the given slot. -/
def GameState.warnOf (g : GameState) : Color → Bool
  | .white => g.warnWhite
  | .black => g.warnBlack

/-- `gameSchema.methods.shouldTimeout`. -/
def shouldTimeout (g : GameState) (timeoutDuration : Int) (now : Time) :
    Bool :=
  if g.status ≠ .active then false
  else timeoutDuration ≤ now - g.lastMoveTime

/-- `gameSchema.methods.shouldWarn`: at least `warningTime` elapsed and
the current turn owner has not been warned yet. -/
def shouldWarn (g : GameState) (warningTime : Int) (now : Time) : Bool :=
  if g.status ≠ .active then false
  else (warningTime ≤ now - g.lastMoveTime) && !(g.warnOf g.currentTurn)

/-- `TimeoutService.sendWarning`: marks the current turn owner as
warned (the only state it saves). -/
def sendWarning (g : GameState) : GameState :=
  match g.currentTurn with
  | .white => { g with warnWhite := true }
  | .black => { g with warnBlack := true }

/-- The result of `TimeoutService.handleTimeout`: the completed game and
the two `$set` rating writes. -/
structure TimeoutOutcome where
  game : GameState
  winnerId : Option UserId
  loserId : Option UserId
  winnerNewRating : Int
  loserNewRating : Int

/-- `TimeoutService.handleTimeout` on a (human) game whose populated
player ratings are `whiteRating`/`blackRating`: the turn owner forfeits,
the other slot wins, ELO is computed from the forfeit result, and the
loser receives an extra −10 floored at 100. -/
noncomputable def handleTimeout (g : GameState)
    (whiteRating blackRating : Int) (now : Time) : TimeoutOutcome :=
  let abandonedPlayer := g.currentTurn
  let winningPlayer := abandonedPlayer.other
  let winnerId := if winningPlayer = .white then g.white else g.black
  let loserId := if abandonedPlayer = .white then g.white else g.black
  let res := if winningPlayer = .white then "1-0" else "0-1"
  let rc := updateRatings whiteRating blackRating res
  { game := { g with
      status := .completed, result := res,
      winner := winnerId, abandonedBy := some abandonedPlayer,
      endedAt := some now },
    winnerId := winnerId, loserId := loserId,
    winnerNewRating :=
      if winningPlayer = .white then rc.whiteRating else rc.blackRating,
    loserNewRating := max 100
      ((if abandonedPlayer = .white then rc.whiteRating else rc.blackRating)
        - 10) }

/-! ## Matchmaking guard (createGame / createBotGame / isUserBusy) -/

/-- `isUserBusy(userId)`: some stored game has the user in either slot
and status active. -/
def isUserBusy (store : List GameState) (uid : UserId) : Bool :=
  store.any fun g =>
    decide (((g.white = some uid) ∨ (g.black = some uid))
      ∧ g.status = Status.active)

inductive CreateOutcome where
  | opponentNotFound
  | selfPlay
  | userBusy
  | opponentBusy
  | created (g : GameState)
deriving DecidableEq, Repr

/-- `createGame`: opponent resolution, self-play check, then the two
busy-guard checks, then creation with a coin flip for colors (`coin`
true means the initiator gets white). -/
def createGame (store : List GameState) (opponentExists : Bool)
    (uid oppId : UserId) (coin : Bool) (now : Time) : CreateOutcome :=
  if ¬opponentExists then .opponentNotFound
  else if uid = oppId then .selfPlay
  else if isUserBusy store uid then .userBusy
  else if isUserBusy store oppId then .opponentBusy
  else .created (newGame (some (if coin then uid else oppId))
    (some (if coin then oppId else uid)) false 10 .active now)

/-- `createBotGame`: busy check, creation with one empty slot, and — when
the bot holds white — one immediate selector move applied before the
response (with a `{from, to}` retry when the full object is rejected). -/
def createBotGame (store : List GameState) (E : Engine)
    (select : String → Option BotMove) (uid : UserId) (rating : Int)
    (coin : Bool) (now now2 : Time) : CreateOutcome :=
  if isUserBusy store uid then .userBusy
  else
    let diff := max 5 (min 20 (Int.fdiv rating 150))
    let g := newGame (if coin then some uid else none)
      (if coin then none else some uid) true diff .active now
    if coin then .created g
    else
      match select g.fen with
      | none => .created g
      | some bm =>
        match E.applyMove g.fen (.obj bm) with
        | some p => .created { g with
            moves := g.moves ++ [p.san],
            fen := p.fen, pgn := p.pgn, currentTurn := .black,
            lastMoveTime := now2 }
        | none =>
          match E.applyMove g.fen (.objFromTo bm.fromSq bm.toSq) with
          | some p => .created { g with
              moves := g.moves ++ [p.san],
              fen := p.fen, pgn := p.pgn, currentTurn := .black,
              lastMoveTime := now2 }
          | none => .created g

/-! ## Concrete fixtures

A small instance of the rules-engine capability over three symbolic
positions: from "F0" any submitted move is the accepted ply "e5" leading
to "F1"; from "F1" any move is the reply "Qh4" leading to "F2", which is
checkmate.  `mateEngine` instead mates immediately from "F0". -/

def demoEngine : Engine :=
  { applyMove := fun f _ =>
      if f = "F0" then some ⟨"e5", "F1", "P1"⟩
      else if f = "F1" then some ⟨"Qh4", "F2", "P2"⟩
      else none,
    isGameOver := fun f => f == "F2",
    isCheckmate := fun f => f == "F2",
    isDraw := fun _ => false }

def mateEngine : Engine :=
  { applyMove := fun f _ =>
      if f = "F0" then some ⟨"Qh4", "F2", "P2"⟩ else none,
    isGameOver := fun f => f == "F2",
    isCheckmate := fun f => f == "F2",
    isDraw := fun _ => false }

/-- A selector that proposes a reply in position "F1" only. -/
def demoSelect : String → Option BotMove :=
  fun f => if f = "F1" then some ⟨"d8", "h4", "q"⟩ else none

/-- A selector finding no move anywhere (terminal position ahead). -/
def drawSelect : String → Option BotMove := fun _ => none

/-- An active human match between alice (white) and bob (black), black
to move, in position "F0". -/
def humanGame : GameState :=
  { newGame (some "alice") (some "bob") false 10 .active 0 with
    fen := "F0", currentTurn := .black }

/-- An active bot match: dave holds white, the bot holds black, white to
move, position "F0". -/
def demoBotGame : GameState :=
  { newGame (some "dave") none true 10 .active 0 with fen := "F0" }

/-- An active human match with black (bob) to move, used for the
timeout fixtures. -/
def demoTimeoutGame : GameState :=
  { newGame (some "alice") (some "bob") false 10 .active 0 with
    currentTurn := .black }

/-- A sample verbose move without a promotion field. -/
def demoVMove : VMove := ⟨"e7", "e5", "p", none, none, "e5", "n"⟩

/-- Projection of a controller response onto the observable fields
(moves, status, result, winner, endedAt, rating effect). -/
def okProj (e : Except MoveErr MoveOk) :
    Option (List String × Status × String × Option UserId
      × Option Time × RatingEffect) :=
  match e with
  | .ok ok => some (ok.game.moves, ok.game.status, ok.game.result,
      ok.game.winner, ok.game.endedAt, ok.effect)
  | .error _ => none

/-! ## Claim theorems -/

/-- **C1** (divergence witness).  The submit-ply endpoints perform no
participant check: carol, who occupies neither slot of the active match
between alice and bob, has a move accepted by `makeMove` (carol is treated as
black because she is not white), mutating the match; and eve, a
non-participant of the bot match of dave, has a move accepted by
`makeBotMove` (which checks neither participation nor turn), triggering
the bot reply and even a rating write against eve. -/
theorem moveEndpoints_accept_nonparticipant :
    ("carol" ≠ "alice" ∧ "carol" ≠ "bob" ∧ humanGame.white = some "alice"
      ∧ humanGame.black = some "bob" ∧ humanGame.status = .active) ∧
    okProj (makeMove demoEngine humanGame "carol" (MoveArg.str "e5") 5)
      = some (["e5"], .active, "ongoing", none, none, .noRatingChange) ∧
    ("eve" ≠ "dave" ∧ demoBotGame.white = some "dave"
      ∧ demoBotGame.black = none) ∧
    okProj (makeBotMove demoEngine demoSelect demoBotGame "eve"
        (MoveArg.str "e5") 5 6)
      = some (["e5", "Qh4"], .completed, "1-0", none, some 6,
          .fixedDelta "eve" (-10)) := by
  refine ⟨⟨?_, ?_, rfl, rfl, rfl⟩, rfl, ⟨?_, rfl, rfl⟩, rfl⟩ <;> decide

/-- **C3** (divergence witness).  When the autonomous opponent delivers
checkmate inside the same request, the acting slot is the bot slot
(black here, since dave holds white), so the claimed result is a win for
black; but the controller computes the result from the truthiness of
`players.white` and records "1-0" — a win for the human slot — while
still charging the human the −10 loss, and sets no winner. -/
theorem makeBotMove_botReplyMate_misassigned :
    demoBotGame.white = some "dave" ∧ demoBotGame.black = none ∧
    okProj (makeBotMove demoEngine demoSelect demoBotGame "dave"
        (MoveArg.str "e5") 5 6)
      = some (["e5", "Qh4"], .completed, "1-0", none, some 6,
          .fixedDelta "dave" (-10)) := by
  refine ⟨rfl, rfl, rfl⟩

/-- **C9** (divergence witness).  The forced draw declared when the
selector returns no move transitions the match to `completed` without
setting `endedAt`: the terminal record keeps `endedAt = none`. -/
theorem makeBotMove_forcedDraw_no_endedAt :
    okProj (makeBotMove demoEngine drawSelect demoBotGame "dave"
        (MoveArg.str "e5") 5 6)
      = some (["e5"], .completed, "1/2-1/2", none, none, .noRatingChange)
      ∧ (∀ g now g2, abortGame g now = .ok g2 → g2.endedAt = some now) := by
  refine ⟨rfl, fun g now g2 h => ?_⟩
  unfold abortGame at h
  split at h
  · exact absurd h (by simp)
  · split at h
    · exact absurd h (by simp)
    · injection h with h
      subst h
      rfl

/-- **C4.** On forced timeout the non-turn-owner slot wins: the game is
completed with the forfeit result, the winner receives the plain ELO
rating of that result, the forfeiting turn owner receives that ELO
rating minus a further 10 floored at 100 — and the ELO invocation is the
one a resignation by the turn owner would make (same result string,
hence identical `updateRatings` call). -/
theorem handleTimeout_forfeit_penalty (g : GameState) (wr br : Int)
    (now : Time) :
    (handleTimeout g wr br now).game.status = Status.completed ∧
    (handleTimeout g wr br now).game.result
      = (if g.currentTurn.other = Color.white then "1-0" else "0-1") ∧
    (handleTimeout g wr br now).game.winner
      = (if g.currentTurn.other = Color.white then g.white else g.black) ∧
    (handleTimeout g wr br now).game.abandonedBy = some g.currentTurn ∧
    (handleTimeout g wr br now).game.endedAt = some now ∧
    (handleTimeout g wr br now).winnerNewRating
      = (if g.currentTurn.other = Color.white
          then (updateRatings wr br
            (if g.currentTurn.other = Color.white then "1-0" else "0-1")).whiteRating
          else (updateRatings wr br
            (if g.currentTurn.other = Color.white then "1-0" else "0-1")).blackRating) ∧
    (handleTimeout g wr br now).loserNewRating
      = max 100 ((if g.currentTurn = Color.white
          then (updateRatings wr br
            (if g.currentTurn.other = Color.white then "1-0" else "0-1")).whiteRating
          else (updateRatings wr br
            (if g.currentTurn.other = Color.white then "1-0" else "0-1")).blackRating)
          - 10) ∧
    (∀ w b, g.white = some w → g.black = some b → w ≠ b →
      g.isBot = false → g.status = Status.active →
      resignGame g (if g.currentTurn = Color.white then w else b) now
        = .ok ⟨{ g with
                 status := Status.completed,
                 result :=
                   (if g.currentTurn.other = Color.white then "1-0" else "0-1"),
                 winner :=
                   some (if g.currentTurn = Color.white then b else w),
                 endedAt := some now },
               .eloUpdate
                 (if g.currentTurn.other = Color.white then "1-0" else "0-1")⟩) := by
  cases hc : g.currentTurn
  all_goals
    refine ⟨rfl, ?_, ?_, ?_, rfl, ?_, ?_, ?_⟩ <;>
      simp [handleTimeout, Color.other, hc]
  all_goals
    intro w b hw hb hne hbot hstat
    simp [resignGame, hstat, hbot, hw, hb, hne, hc]

/-- **C4 witness.** The theorem applied to the concrete match with black
to move and ratings 1200/1300 at time 7. -/
theorem handleTimeout_forfeit_penalty_witness :
    (handleTimeout demoTimeoutGame 1200 1300 7).game.result = "1-0" ∧
    resignGame demoTimeoutGame "bob" 7
      = .ok ⟨{ demoTimeoutGame with
               status := Status.completed, result := "1-0",
               winner := some "alice", endedAt := some 7 },
             .eloUpdate "1-0"⟩ := by
  have h := handleTimeout_forfeit_penalty demoTimeoutGame 1200 1300 7
  constructor
  · have h2 := h.2.1
    simpa [demoTimeoutGame, newGame, Color.other] using h2
  · have h8 := h.2.2.2.2.2.2.2 "alice" "bob" rfl rfl (by decide) rfl rfl
    simpa [demoTimeoutGame, newGame, Color.other] using h8

/-- **C9 witness** (for the abort conjunct of the theorem). -/
theorem makeBotMove_forcedDraw_no_endedAt_witness :
    ({ humanGame with status := Status.abandoned, endedAt := some 3 }
      : GameState).endedAt = some 3 :=
  makeBotMove_forcedDraw_no_endedAt.2 humanGame 3
    { humanGame with status := Status.abandoned, endedAt := some 3 } rfl

/-- **C6.** One warning per inactivity episode: a warning can fire only
while the flag of the turn owner is down (and the match is active with at
least the threshold elapsed); firing raises exactly that flag (touching
nothing else of the match); once raised, no further warning can fire at
any time; and an accepted ply through `makeMove` lowers both flags,
re-arming the mechanism. -/
theorem warning_once_per_episode (g : GameState) (wt : Int) (now : Time) :
    (shouldWarn g wt now = true →
      g.warnOf g.currentTurn = false ∧ g.status = Status.active ∧
        wt ≤ now - g.lastMoveTime) ∧
    ((sendWarning g).warnOf g.currentTurn = true) ∧
    (∀ now2, shouldWarn (sendWarning g) wt now2 = false) ∧
    ((sendWarning g).warnOf g.currentTurn.other = g.warnOf g.currentTurn.other
      ∧ (sendWarning g).currentTurn = g.currentTurn
      ∧ (sendWarning g).status = g.status
      ∧ (sendWarning g).lastMoveTime = g.lastMoveTime) ∧
    (∀ E uid mv now3 ok, makeMove E g uid mv now3 = .ok ok →
      ok.game.warnWhite = false ∧ ok.game.warnBlack = false) := by
  refine ⟨?_, ?_, ?_, ?_, ?_⟩
  · intro h
    unfold shouldWarn at h
    split at h
    · exact absurd h (by simp)
    · rename_i hstat
      rw [Bool.and_eq_true, Bool.not_eq_true', decide_eq_true_iff] at h
      exact ⟨h.2, by simpa using hstat, h.1⟩
  · cases hc : g.currentTurn <;> simp [sendWarning, hc, GameState.warnOf]
  · intro now2
    unfold shouldWarn
    split
    · rfl
    · have : (sendWarning g).warnOf (sendWarning g).currentTurn = true := by
        cases hc : g.currentTurn <;>
          simp [sendWarning, hc, GameState.warnOf]
      rw [this]
      simp
  · cases hc : g.currentTurn <;>
      simp [sendWarning, hc, GameState.warnOf, Color.other]
  · intro E uid mv now3 ok h
    simp only [makeMove] at h
    repeat' split at h
    all_goals
      first
        | exact Except.noConfusion h
        | (injection h with h; subst h; exact ⟨rfl, rfl⟩)

/-- **C6 witness.** The theorem applied to the concrete warnable match
at threshold 60000 and time 70000. -/
theorem warning_once_per_episode_witness :
    (demoTimeoutGame.warnOf demoTimeoutGame.currentTurn = false ∧
      demoTimeoutGame.status = Status.active ∧
      (60000 : Int) ≤ 70000 - demoTimeoutGame.lastMoveTime) ∧
    shouldWarn (sendWarning demoTimeoutGame) 60000 80000 = false :=
  ⟨(warning_once_per_episode demoTimeoutGame 60000 70000).1 (by decide),
   (warning_once_per_episode demoTimeoutGame 60000 70000).2.2.1 80000⟩

/-- Projection of a controller response onto the rating write alone. -/
def okEffect (e : Except MoveErr MoveOk) : Option RatingEffect :=
  match e with
  | .ok ok => some ok.effect
  | .error _ => none

/-- **C7.** In a bot match the human rating moves only by fixed deltas:
a mating ply by the human yields a `$inc` of +10, a mating bot reply a
`$inc` of −10, either draw outcome no rating write, resignation a
`$inc` of −5 — and neither endpoint ever issues an `updateRatings`
(ELO) write for a bot match. -/
theorem botMatch_fixed_deltas (E : Engine) (select : String → Option BotMove)
    (g : GameState) (uid : UserId) (mv : MoveArg) (now now2 : Time) :
    (∀ p, g.isBot = true → g.status = Status.active →
      E.applyMove g.fen mv = some p → E.isGameOver p.fen = true →
      E.isCheckmate p.fen = true →
      okEffect (makeBotMove E select g uid mv now now2)
        = some (.fixedDelta uid 10)) ∧
    (∀ p, g.isBot = true → g.status = Status.active →
      E.applyMove g.fen mv = some p → E.isGameOver p.fen = true →
      E.isCheckmate p.fen = false → E.isDraw p.fen = true →
      okEffect (makeBotMove E select g uid mv now now2)
        = some .noRatingChange) ∧
    (∀ p bm bp, g.isBot = true → g.status = Status.active →
      E.applyMove g.fen mv = some p → E.isGameOver p.fen = false →
      select (g.applyPly p now).fen = some bm →
      E.applyMove (g.applyPly p now).fen (.obj bm) = some bp →
      E.isGameOver bp.fen = true → E.isCheckmate bp.fen = true →
      okEffect (makeBotMove E select g uid mv now now2)
        = some (.fixedDelta uid (-10))) ∧
    (∀ p bm bp, g.isBot = true → g.status = Status.active →
      E.applyMove g.fen mv = some p → E.isGameOver p.fen = false →
      select (g.applyPly p now).fen = some bm →
      E.applyMove (g.applyPly p now).fen (.obj bm) = some bp →
      E.isGameOver bp.fen = true → E.isCheckmate bp.fen = false →
      E.isDraw bp.fen = true →
      okEffect (makeBotMove E select g uid mv now now2)
        = some .noRatingChange) ∧
    (g.isBot = true → g.status = Status.active →
      okEffect (resignGame g uid now) = some (.fixedDelta uid (-5))) ∧
    (∀ ok r, makeBotMove E select g uid mv now now2 = .ok ok →
      ok.effect ≠ .eloUpdate r) ∧
    (∀ ok r, g.isBot = true → resignGame g uid now = .ok ok →
      ok.effect ≠ .eloUpdate r) := by
  refine ⟨?_, ?_, ?_, ?_, ?_, ?_, ?_⟩
  · intro p hbot hstat happ hover hmate
    simp [okEffect, makeBotMove, hbot, hstat, happ, hover, hmate]
  · intro p hbot hstat happ hover hmate hdraw
    simp [okEffect, makeBotMove, hbot, hstat, happ, hover, hmate, hdraw]
  · intro p bm bp hbot hstat happ hover hsel happ2 hover2 hmate2
    simp [okEffect, makeBotMove, hbot, hstat, happ, hover, hsel, happ2,
      hover2, hmate2]
  · intro p bm bp hbot hstat happ hover hsel happ2 hover2 hmate2 hdraw2
    simp [okEffect, makeBotMove, hbot, hstat, happ, hover, hsel, happ2,
      hover2, hmate2, hdraw2]
  · intro hbot hstat
    simp [okEffect, resignGame, hbot, hstat]
  · intro ok r h
    simp only [makeBotMove] at h
    repeat' split at h
    all_goals
      first
        | exact Except.noConfusion h
        | (injection h with h; subst h; simp)
  · intro ok r hbot h
    simp only [resignGame, hbot] at h
    repeat' split at h
    all_goals
      first
        | exact Except.noConfusion h
        | exact absurd trivial (by assumption)
        | (injection h with h; subst h; simp)

/-- **C7 witness.** A bot match where the human mates at once (+10) and
the same match resigned (−5). -/
theorem botMatch_fixed_deltas_witness :
    okEffect (makeBotMove mateEngine demoSelect demoBotGame "dave"
        (MoveArg.str "Qh4") 5 6) = some (.fixedDelta "dave" 10) ∧
    okEffect (resignGame demoBotGame "dave" 5)
      = some (.fixedDelta "dave" (-5)) :=
  ⟨(botMatch_fixed_deltas mateEngine demoSelect demoBotGame "dave"
      (MoveArg.str "Qh4") 5 6).1 ⟨"Qh4", "F2", "P2"⟩ rfl rfl rfl rfl rfl,
   (botMatch_fixed_deltas mateEngine demoSelect demoBotGame "dave"
      (MoveArg.str "Qh4") 5 6).2.2.2.2.1 rfl rfl⟩

/-- **C8.** The busy guard: `isUserBusy` holds exactly when some stored
match has the user in a slot with status active; on a well-formed human
create request the controller answers `USER_BUSY` exactly when the
initiator is busy, `OPPONENT_BUSY` exactly when only the opponent is,
and otherwise creates a match with status active; the bot endpoint
answers `USER_BUSY` whenever the initiator is busy and every match it
creates is active. -/
theorem busyGuard (store : List GameState) (uid oppId : UserId)
    (coin : Bool) (now : Time) (hne : uid ≠ oppId) :
    (isUserBusy store uid = true ↔
      ∃ g ∈ store, (g.white = some uid ∨ g.black = some uid)
        ∧ g.status = Status.active) ∧
    (createGame store true uid oppId coin now = .userBusy ↔
      isUserBusy store uid = true) ∧
    (createGame store true uid oppId coin now = .opponentBusy ↔
      (isUserBusy store uid = false ∧ isUserBusy store oppId = true)) ∧
    (isUserBusy store uid = false → isUserBusy store oppId = false →
      createGame store true uid oppId coin now =
        .created (newGame (some (if coin then uid else oppId))
          (some (if coin then oppId else uid)) false 10 .active now)) ∧
    (∀ g, createGame store true uid oppId coin now = .created g →
      g.status = Status.active) ∧
    (∀ E select rating now2, isUserBusy store uid = true →
      createBotGame store E select uid rating coin now now2 = .userBusy) ∧
    (∀ E select rating now2 g,
      createBotGame store E select uid rating coin now now2 = .created g →
      g.status = Status.active) := by
  refine ⟨?_, ?_, ?_, ?_, ?_, ?_, ?_⟩
  · simp [isUserBusy, List.any_eq_true]
  · by_cases hu : isUserBusy store uid <;>
      by_cases ho : isUserBusy store oppId <;>
      simp [createGame, hne, hu, ho]
  · by_cases hu : isUserBusy store uid <;>
      by_cases ho : isUserBusy store oppId <;>
      simp [createGame, hne, hu, ho]
  · intro hu ho
    simp [createGame, hne, hu, ho]
  · intro g h
    simp only [createGame] at h
    repeat' split at h
    all_goals
      first
        | exact CreateOutcome.noConfusion h
        | (injection h with h; subst h; rfl)
  · intro E select rating now2 hu
    simp [createBotGame, hu]
  · intro E select rating now2 g h
    simp only [createBotGame] at h
    repeat' split at h
    all_goals
      first
        | exact CreateOutcome.noConfusion h
        | (injection h with h; subst h; rfl)

/-- **C8 witness.** With alice already in an active match, creating
against carol answers `USER_BUSY`; with an empty store the match is
created active. -/
theorem busyGuard_witness :
    createGame [humanGame] true "alice" "carol" true 0 = .userBusy ∧
    createGame [] true "alice" "carol" true 0 =
      .created (newGame (some "alice") (some "carol") false 10 .active 0) :=
  ⟨(busyGuard [humanGame] "alice" "carol" true 0 (by decide)).2.1.mpr
      (by decide),
   (busyGuard [] "alice" "carol" true 0 (by decide)).2.2.2.1 rfl rfl⟩

/-- **C5 witness.** The theorem applied to the empty move list (null
return) and to a singleton whose only move the safety filter rejects
(evaluation falls back to the unfiltered list). -/
theorem getSmartMove_total_witness :
    getSmartMove (fun _ => 0) (fun _ => false) [] 0 = none ∧
    getSmartMove (fun _ => 0) (fun _ => false) [demoVMove] 0
      = Option.map mkBotMove (pickOf (bestMovesOf (fun _ => 0) [demoVMove]) 0) :=
  ⟨(getSmartMove_total (fun _ => 0) (fun _ => false) [] 0).1.mpr rfl,
   (getSmartMove_total (fun _ => 0) (fun _ => false) [demoVMove] 0).2.2
     (by decide) (by decide)⟩

/-- **C10 witness.** The selected sample move has no promotion field, so
the returned object defaults to "q". -/
theorem selector_promotion_default_witness :
    (mkBotMove demoVMove).promotion = "q" := by
  obtain ⟨m, hm, h1, h2, h3⟩ :=
    (selector_promotion_default (fun _ => 0) (fun _ => false)
      [demoVMove] 0).2 (mkBotMove demoVMove) (by decide)
  rw [List.mem_singleton] at hm
  subst hm
  exact h3 rfl

end ChessProj
